import Mathlib

/-!
Verification of the installation-integrity and warning-throttling subsystem
of the Afevis MGS2 Bugfix Compilation ASI mod
(`src/ASI Mod/src/bugfix_mod_checks.cpp`).

The embedding follows the C++ source directly:

* `ModWarningCache` mirrors the anonymous-namespace struct of the same name:
  three wide-string fingerprint fields (`installPath`, `installDate`,
  `fixVersion`) and a map from condition-key strings to 32-bit warning
  counts.  Wide strings are modelled as lists of code-unit values
  (`wchar_t` is 16-bit on the target platform) and narrow strings as lists
  of byte values; the map is modelled as an association list whose order
  fixes the (unspecified) `unordered_map` iteration order.
* `SaveCache` / `LoadCache` mirror the binary serialization byte for byte:
  32-bit little-endian length fields, UTF-16-code-unit payloads for the
  wide strings, raw bytes for keys, 32-bit little-endian counts.
  Stream reads are modelled by `readN`: a short read consumes what is
  available and zero-fills the rest, matching `std::istream::read` into
  zero-initialized buffers with the fail-bit latching (all reads after the
  first short read see an empty stream and hence produce zeroes).
* `ShouldWarn`, `RecordWarning` and `VerifyInstallationCheck` mirror the
  policy functions and `VerifyInstallation::Check`.
-/

/-- 32-bit little-endian encoding of a value, as `std::ofstream::write` of a
`uint32_t` emits it.  Values at or above `2^32` are truncated exactly as a
`static_cast<uint32_t>` would truncate them. -/
def u32LE (n : Nat) : List Nat :=
  [n % 256, n / 256 % 256, n / 65536 % 256, n / 16777216 % 256]

/-- Decoding of four little-endian bytes into a `uint32_t` value; any other
shape decodes to `0` (it never arises: `readN` always delivers four bytes). -/
def decodeU32 : List Nat → Nat
  | [a, b, c, d] => a + 256 * b + 65536 * c + 16777216 * d
  | _ => 0

/-- Little-endian byte pair of one 16-bit `wchar_t` code unit. -/
def wcharLE (c : Nat) : List Nat :=
  [c % 256, c / 256 % 256]

/-- Byte stream of a wide string, as `write(data(), len * sizeof(wchar_t))`
emits it. -/
def encodeW : List Nat → List Nat
  | [] => []
  | c :: rest => wcharLE c ++ encodeW rest

/-- Regrouping of a byte stream into 16-bit code units, as reading back into
a `std::vector<wchar_t>` buffer does. -/
def wcharsOf : List Nat → List Nat
  | a :: b :: rest => (a + 256 * b) :: wcharsOf rest
  | _ => []

/-- `f.read(buf, n)` on a stream with remaining bytes `rem`: the first `n`
remaining bytes are delivered, a short read zero-fills the tail of the
zero-initialized destination buffer (and latches the fail bit, so every
later read sees an empty remainder and again produces zeroes). -/
def readN (n : Nat) (rem : List Nat) : List Nat × List Nat :=
  (rem.take n ++ List.replicate (n - rem.length) 0, rem.drop n)

/-- One length-prefixed wide-string field of `SaveCache`: the length is
written through `static_cast<uint32_t>` and that truncated length also
bounds how many code units are written. -/
def serializeWStr (s : List Nat) : List Nat :=
  u32LE (s.length % 4294967296) ++ encodeW (s.take (s.length % 4294967296))

/-- One length-prefixed wide-string field of `LoadCache`: read a `uint32_t`
length, then that many code units. -/
def readWStr (rem : List Nat) : List Nat × List Nat :=
  let p1 := readN 4 rem
  let p2 := readN (2 * decodeU32 p1.1) p1.2
  (wcharsOf p2.1, p2.2)

/-- The per-entry section of `SaveCache`: for each map entry, key length as
`uint32_t`, the key bytes, and the `uint32_t` count. -/
def serializeEntries : List (List Nat × Nat) → List Nat
  | [] => []
  | e :: rest =>
    u32LE (e.1.length % 4294967296) ++ e.1.take (e.1.length % 4294967296)
      ++ u32LE e.2 ++ serializeEntries rest

/-- `data.warnCounts[key] = count`: replace the value of an existing key or
append a new binding. -/
def setEntry : List (List Nat × Nat) → List Nat → Nat → List (List Nat × Nat)
  | [], k, v => [(k, v)]
  | e :: rest, k, v => if e.1 = k then (k, v) :: rest else e :: setEntry rest k v

/-- The entry-reading loop of `LoadCache`: `entryCount` iterations, each
reading key length, key bytes and count, then storing via `operator[]`. -/
def loadEntries : Nat → List Nat → List (List Nat × Nat) → List (List Nat × Nat) × List Nat
  | 0, rem, acc => (acc, rem)
  | n + 1, rem, acc =>
    let p1 := readN 4 rem
    let p2 := readN (decodeU32 p1.1) p1.2
    let p3 := readN 4 p2.2
    loadEntries n p3.2 (setEntry acc p2.1 (decodeU32 p3.1))

/-- The `ModWarningCache` struct of `bugfix_mod_checks.cpp`: three
fingerprint strings and the per-key warning counts. -/
structure ModWarningCache where
  installPath : List Nat
  installDate : List Nat
  fixVersion : List Nat
  warnCounts : List (List Nat × Nat)
deriving DecidableEq

/-- A default-constructed `ModWarningCache data;`: empty strings, empty map. -/
def emptyCache : ModWarningCache := ⟨[], [], [], []⟩

/-- `SaveCache` of `bugfix_mod_checks.cpp`: the three length-prefixed
fingerprint strings, the `uint32_t` entry count, then the entries. -/
def SaveCache (d : ModWarningCache) : List Nat :=
  serializeWStr d.installPath ++ serializeWStr d.installDate
    ++ serializeWStr d.fixVersion
    ++ u32LE (d.warnCounts.length % 4294967296)
    ++ serializeEntries d.warnCounts

/-- `LoadCache` of `bugfix_mod_checks.cpp`.  `none` stands for an absent
(or unopenable) cache file, where the function returns the
default-constructed cache; otherwise the byte content is parsed
sequentially, short reads zero-filling as the C++ stream reads do. -/
def LoadCache : Option (List Nat) → ModWarningCache
  | none => emptyCache
  | some bytes =>
    let p1 := readWStr bytes
    let p2 := readWStr p1.2
    let p3 := readWStr p2.2
    let p4 := readN 4 p3.2
    let es := loadEntries (decodeU32 p4.1) p4.2 []
    { installPath := p1.1, installDate := p2.1, fixVersion := p3.1,
      warnCounts := es.1 }

/-- `cache.warnCounts.find(key)` on the association-list model. -/
def findCount : List (List Nat × Nat) → List Nat → Option Nat
  | [], _ => none
  | e :: rest, key => if e.1 = key then some e.2 else findCount rest key

/-- The count that `ShouldWarn` extracts: the stored count, or `0` when the
key has no entry. -/
def countOf (cache : ModWarningCache) (key : List Nat) : Nat :=
  (findCount cache.warnCounts key).getD 0

/-- `ShouldWarn(cache, key, maxWarnings)`: `count < maxWarnings`. -/
def ShouldWarn (cache : ModWarningCache) (key : List Nat) (maxW : Nat) : Bool :=
  decide (countOf cache key < maxW)

/-- `cache.warnCounts[key]++` with `uint32_t` wrap-around: a missing key is
value-initialized to `0` and then incremented to `1`; an existing count is
incremented modulo `2^32`. -/
def bumpCount : List (List Nat × Nat) → List Nat → List (List Nat × Nat)
  | [], key => [(key, 1)]
  | e :: rest, key =>
    if e.1 = key then (e.1, (e.2 + 1) % 4294967296) :: rest
    else e :: bumpCount rest key

/-- `RecordWarning(cache, file, key)`: increment the key's count, then
synchronously `SaveCache` the whole cache.  The second component is the
byte stream written to the cache file by that save. -/
def RecordWarning (cache : ModWarningCache) (key : List Nat) :
    ModWarningCache × List Nat :=
  let c := { cache with warnCounts := bumpCount cache.warnCounts key }
  (c, SaveCache c)

/-- `n` successive `RecordWarning` calls for the same key. -/
def recordN : Nat → ModWarningCache → List Nat → ModWarningCache
  | 0, c, _ => c
  | n + 1, c, k => recordN n (RecordWarning c k).1 k

/-- Byte values of an ASCII key literal such as
`"MGS2_AfevisBugFixCompilation"`. -/
def strBytes (s : String) : List Nat :=
  s.data.map (fun c => c.toNat)

/-- The single condition key used by both warning sites of
`VerifyInstallation::Check`. -/
def warnKey : List Nat := strBytes "MGS2_AfevisBugFixCompilation"

/-- The `constexpr uint32_t maxWarnings = 3` of both warning sites. -/
def maxWarnings : Nat := 3

/-- Result of one run of `VerifyInstallation::Check`: the final in-memory
cache, the byte streams persisted to the cache file in order (one per
`SaveCache` call), and whether each of the two warning pop-ups was shown. -/
structure CheckResult where
  cache : ModWarningCache
  writes : List (List Nat)
  shown1 : Bool
  shown2 : Bool
deriving DecidableEq

/-- One warning site of `VerifyInstallation::Check`: if the probe condition
holds, consult `ShouldWarn` with key `warnKey` and budget `maxWarnings`;
when authorized, show the pop-up and `RecordWarning` (which saves the
cache), otherwise only log the suppression. -/
def runWarnStep (cache : ModWarningCache) (cond : Bool) :
    ModWarningCache × Option (List Nat) × Bool :=
  if cond then
    if ShouldWarn cache warnKey maxWarnings then
      let r := RecordWarning cache warnKey
      (r.1, some r.2, true)
    else (cache, none, false)
  else (cache, none, false)

/-- `VerifyInstallation::Check` of `bugfix_mod_checks.cpp`: load the cache
file, reset the cache in memory when any of the three fingerprint fields
differs from the live environment, then evaluate the two probe conditions
(abstracted as booleans: the file-existence and SHA-1 probes read the
file system) through the shared warning site. -/
def VerifyInstallationCheck (diskFile : Option (List Nat))
    (curPath curDate curVersion : List Nat) (cond1 cond2 : Bool) : CheckResult :=
  let loaded := LoadCache diskFile
  let cache0 :=
    if loaded.installPath = curPath ∧ loaded.installDate = curDate ∧
        loaded.fixVersion = curVersion then loaded
    else { installPath := curPath, installDate := curDate,
           fixVersion := curVersion, warnCounts := [] }
  let s1 := runWarnStep cache0 cond1
  let s2 := runWarnStep s1.1 cond2
  { cache := s2.1, writes := s1.2.1.toList ++ s2.2.1.toList,
    shown1 := s1.2.2, shown2 := s2.2.2 }

/-- The single known-good SHA-1 digest of the base package's marker file. -/
def goodBaseHash : String := "11d03110d40b42adeafde2fa5f5cf65f27d6fc52"

/-- The base-package-missing probe of `VerifyInstallation::Check`:
`exists(marker) && !SHA1Check(marker, goodBaseHash)`.  The file-system and
hash collaborators are abstracted into one input: `none` when the marker
file does not exist, `some d` when it exists and its content digest is
`d` (`Util::SHA1Check(p, h)` holds exactly when the digest of `p` is `h`). -/
def baseMissingCondition : Option String → Bool
  | none => false
  | some d => decide (d ≠ goodBaseHash)

/-- A persisted cache whose key has already been shown `3` times. -/
def exhaustedCache : ModWarningCache := ⟨[], [], [], [(warnKey, 3)]⟩

/-- A persisted cache whose key has been shown twice, with an empty
fingerprint. -/
def stored2 : ModWarningCache := ⟨[], [], [], [(warnKey, 2)]⟩

/-- A persisted cache recorded under an old fingerprint (`installPath`
code unit `65`), with a warning history. -/
def staleCache : ModWarningCache := ⟨[65], [], [], [(warnKey, 2)]⟩

/-- A populated cache whose `installPath` has exactly `2^32` code units:
representable by a 64-bit `std::wstring`, but its length does not fit the
`uint32_t` length field of the serialization format. -/
def hugeCache : ModWarningCache :=
  ⟨List.replicate 4294967296 65, [], [], [([97], 1)]⟩

/-- A one-entry cache used to exhibit the persisted byte layout. -/
def sampleCache : ModWarningCache := ⟨[], [], [], [([97], 5)]⟩

/-- A populated cache with all fields non-trivial, used to instantiate the
round-trip theorems. -/
def roundTripSample : ModWarningCache :=
  ⟨[72, 300], [50], [49], [(warnKey, 2), ([97], 7)]⟩

/-! ### Helper lemmas about the warning counts -/

theorem findCount_bumpCount_self (m : List (List Nat × Nat)) (k : List Nat) :
    findCount (bumpCount m k) k = some (((findCount m k).getD 0 + 1) % 4294967296) := by
  induction m with
  | nil => simp [bumpCount, findCount]
  | cons e rest ih =>
    by_cases h : e.1 = k
    · simp [bumpCount, findCount, h]
    · simp [bumpCount, findCount, h, ih]

theorem findCount_bumpCount_other (m : List (List Nat × Nat)) (k k' : List Nat)
    (h : k' ≠ k) : findCount (bumpCount m k) k' = findCount m k' := by
  have hk : k ≠ k' := Ne.symm h
  induction m with
  | nil => simp [bumpCount, findCount, hk]
  | cons e rest ih =>
    by_cases he : e.1 = k
    · have he' : ¬e.1 = k' := by rw [he]; exact hk
      simp [bumpCount, findCount, he, he', hk]
    · by_cases he' : e.1 = k'
      · simp [bumpCount, findCount, he, he', h]
      · simp [bumpCount, findCount, he, he', ih]

theorem countOf_recordWarning (cache : ModWarningCache) (key : List Nat) :
    countOf (RecordWarning cache key).1 key = (countOf cache key + 1) % 4294967296 := by
  simp [RecordWarning, countOf, findCount_bumpCount_self]

theorem countOf_recordN (n : Nat) (cache : ModWarningCache) (key : List Nat)
    (h : countOf cache key < 4294967296) :
    countOf (recordN n cache key) key = (countOf cache key + n) % 4294967296 := by
  induction n generalizing cache with
  | zero => simpa [recordN] using (Nat.mod_eq_of_lt h).symm
  | succ n ih =>
    have h1 : countOf (RecordWarning cache key).1 key =
        (countOf cache key + 1) % 4294967296 := countOf_recordWarning cache key
    have h2 : countOf (RecordWarning cache key).1 key < 4294967296 := by
      rw [h1]; exact Nat.mod_lt _ (by norm_num)
    have h3 := ih (RecordWarning cache key).1 h2
    rw [recordN, h3, h1, Nat.mod_add_mod]
    ring_nf

/-! ### Helper lemmas about the serialization format -/

theorem length_u32LE (n : Nat) : (u32LE n).length = 4 := by
  simp [u32LE]

theorem decodeU32_u32LE (n : Nat) : decodeU32 (u32LE n) = n % 4294967296 := by
  simp only [u32LE, decodeU32]
  omega

theorem length_encodeW (s : List Nat) : (encodeW s).length = 2 * s.length := by
  induction s with
  | nil => simp [encodeW]
  | cons c rest ih => simp [encodeW, wcharLE, ih]; omega

theorem wcharsOf_encodeW (s : List Nat) (h : ∀ x ∈ s, x < 65536) :
    wcharsOf (encodeW s) = s := by
  induction s with
  | nil => simp [encodeW, wcharsOf]
  | cons c rest ih =>
    have hc : c < 65536 := h c (List.mem_cons_self c rest)
    have hrest : ∀ x ∈ rest, x < 65536 := fun x hx => h x (List.mem_cons_of_mem c hx)
    show (c % 256 + 256 * (c / 256 % 256)) :: wcharsOf (encodeW rest) = c :: rest
    rw [ih hrest]
    congr 1
    omega

theorem readN_exact (n : Nat) (l rest : List Nat) (h : l.length = n) :
    readN n (l ++ rest) = (l, rest) := by
  subst h
  simp [readN, List.take_left, List.drop_left]

theorem readWStr_serializeWStr (s rest : List Nat)
    (h1 : s.length < 4294967296) (h2 : ∀ x ∈ s, x < 65536) :
    readWStr (serializeWStr s ++ rest) = (s, rest) := by
  have hm : s.length % 4294967296 = s.length := Nat.mod_eq_of_lt h1
  have hs : s.take (s.length % 4294967296) = s := by rw [hm, List.take_length]
  rw [serializeWStr, hs, List.append_assoc, readWStr,
    readN_exact 4 (u32LE (s.length % 4294967296)) _ (length_u32LE _)]
  simp only [decodeU32_u32LE, hm,
    readN_exact (2 * s.length) (encodeW s) rest (by rw [length_encodeW]),
    wcharsOf_encodeW s h2]

theorem setEntry_of_not_mem (m : List (List Nat × Nat)) (k : List Nat) (v : Nat)
    (h : ∀ e ∈ m, e.1 ≠ k) : setEntry m k v = m ++ [(k, v)] := by
  induction m with
  | nil => simp [setEntry]
  | cons e rest ih =>
    have he : ¬e.1 = k := h e (List.mem_cons_self e rest)
    have hrest : ∀ e' ∈ rest, e'.1 ≠ k := fun e' hx => h e' (List.mem_cons_of_mem e hx)
    simp [setEntry, he, ih hrest]

theorem loadEntries_serializeEntries (l : List (List Nat × Nat))
    (rest : List Nat) (acc : List (List Nat × Nat))
    (hwf : ∀ e ∈ l, e.1.length < 4294967296 ∧ e.2 < 4294967296)
    (hdisj : ∀ e ∈ l, ∀ a ∈ acc, a.1 ≠ e.1)
    (hnd : (l.map Prod.fst).Nodup) :
    loadEntries l.length (serializeEntries l ++ rest) acc = (acc ++ l, rest) := by
  induction l generalizing acc with
  | nil => simp [loadEntries, serializeEntries]
  | cons e l' ih =>
    obtain ⟨hkl, hc⟩ := hwf e (List.mem_cons_self _ _)
    have hm : e.1.length % 4294967296 = e.1.length := Nat.mod_eq_of_lt hkl
    have hk : e.1.take (e.1.length % 4294967296) = e.1 := by rw [hm, List.take_length]
    have hnotin : e.1 ∉ l'.map Prod.fst := by
      simp only [List.map_cons, List.nodup_cons] at hnd
      exact hnd.1
    have hnd' : (l'.map Prod.fst).Nodup := by
      simp only [List.map_cons, List.nodup_cons] at hnd
      exact hnd.2
    have hdisj' : ∀ e' ∈ l', ∀ a ∈ acc ++ [(e.1, e.2)], a.1 ≠ e'.1 := by
      intro e' he' a ha
      rcases List.mem_append.mp ha with ha' | ha'
      · exact hdisj e' (List.mem_cons_of_mem _ he') a ha'
      · have hae : a = (e.1, e.2) := by simpa using ha'
        subst hae
        intro hcontra
        exact hnotin (by simpa [← hcontra] using List.mem_map_of_mem Prod.fst he')
    rw [List.length_cons, serializeEntries, hk, loadEntries]
    simp only [List.append_assoc]
    rw [readN_exact 4 (u32LE (e.1.length % 4294967296)) _ (length_u32LE _)]
    simp only [decodeU32_u32LE, hm]
    rw [readN_exact e.1.length e.1 _ rfl]
    simp only []
    rw [readN_exact 4 (u32LE e.2) _ (length_u32LE _)]
    simp only [decodeU32_u32LE, Nat.mod_eq_of_lt hc]
    rw [setEntry_of_not_mem acc e.1 e.2 (fun a ha => hdisj e (List.mem_cons_self _ _) a ha)]
    rw [ih (acc ++ [(e.1, e.2)]) (fun e' he' => hwf e' (List.mem_cons_of_mem _ he')) hdisj' hnd']
    simp

/-- Parsing the serialized form of a cache (followed by any trailing junk)
recovers the cache exactly, provided every length field fits its 32-bit
slot, every wide-string code unit fits `wchar_t`, every count fits
`uint32_t`, and the map keys are distinct (all of which hold for any cache
the program itself builds, except that string lengths are not bounded by
the `std::wstring` type). -/
theorem loadCache_saveCache_append (d : ModWarningCache) (junk : List Nat)
    (h1 : d.installPath.length < 4294967296) (h2 : ∀ x ∈ d.installPath, x < 65536)
    (h3 : d.installDate.length < 4294967296) (h4 : ∀ x ∈ d.installDate, x < 65536)
    (h5 : d.fixVersion.length < 4294967296) (h6 : ∀ x ∈ d.fixVersion, x < 65536)
    (h7 : d.warnCounts.length < 4294967296)
    (h8 : ∀ e ∈ d.warnCounts, e.1.length < 4294967296 ∧ e.2 < 4294967296)
    (h9 : (d.warnCounts.map Prod.fst).Nodup) :
    LoadCache (some (SaveCache d ++ junk)) = d := by
  obtain ⟨ip, idt, fv, wc⟩ := d
  simp only at h1 h2 h3 h4 h5 h6 h7 h8 h9
  rw [SaveCache]
  simp only [List.append_assoc]
  rw [LoadCache]
  simp only [readWStr_serializeWStr ip _ h1 h2, readWStr_serializeWStr idt _ h3 h4,
    readWStr_serializeWStr fv _ h5 h6]
  rw [readN_exact 4 (u32LE (wc.length % 4294967296)) _ (length_u32LE _)]
  simp only [decodeU32_u32LE, Nat.mod_eq_of_lt h7]
  rw [loadEntries_serializeEntries wc junk [] h8 (by simp) h9]
  simp

theorem readN_replicate_zero (k n : Nat) :
    readN k (List.replicate n 0) = (List.replicate k 0, List.replicate (n - k) 0) := by
  simp only [readN, List.take_replicate, List.drop_replicate, List.length_replicate]
  congr 1
  rw [← List.replicate_add]
  congr 1
  omega

theorem readWStr_replicate_zero (n : Nat) :
    readWStr (List.replicate n 0) = ([], List.replicate (n - 4) 0) := by
  rw [readWStr, readN_replicate_zero]
  have h4 : decodeU32 [0, 0, 0, 0] = 0 := by decide
  simp [h4, readN, wcharsOf]


/-! ### Claim C3 -/

/-- Claim C3: for a fresh (empty) cache and any condition key, the remaining
budget `initialWarningCount - shownCount` equals `initialWarningCount`
(here `maxWarnings = 3`) and `ShouldWarn` returns true; moreover
`ShouldWarn` agrees with `remaining > 0` for every cache, key and policy. -/
theorem claim3_fresh_cache_authorizes :
    (∀ key : List Nat, ShouldWarn emptyCache key maxWarnings = true ∧
      maxWarnings - countOf emptyCache key = maxWarnings) ∧
    ∀ (cache : ModWarningCache) (key : List Nat) (m : Nat),
      (ShouldWarn cache key m = true ↔ 0 < m - countOf cache key) := by
  constructor
  · intro key
    constructor
    · simp [ShouldWarn, countOf, findCount, emptyCache, maxWarnings]
    · simp [countOf, findCount, emptyCache]
  · intro cache key m
    rw [ShouldWarn]
    simp only [decide_eq_true_eq]
    omega

/-! ### Claim C9 -/

/-- Claim C9: the base-package-missing condition is true exactly when the
marker file exists (`some d`) and its digest `d` differs from the
known-good digest; when the marker is absent (`none`) the condition does
not trigger. -/
theorem claim9_base_missing_condition :
    baseMissingCondition none = false ∧
    ∀ d : Option String,
      (baseMissingCondition d = true ↔ ∃ s, d = some s ∧ s ≠ goodBaseHash) := by
  refine ⟨rfl, ?_⟩
  intro d
  cases d with
  | none => simp [baseMissingCondition]
  | some s => simp [baseMissingCondition]

/-! ### Claim C1 -/

/-- Claim C1 counterexample: for an entry whose initial budget is exhausted
(count `3`, the state the claim calls the cooldown phase), `ShouldWarn` is
false, is still false after the cache is persisted and reloaded (i.e. at
any later launch, after any amount of elapsed time — no timestamp exists
in the state and `ShouldWarn` takes no time input), and is still false
after five more recorded displays.  This contradicts the claim that
`ShouldWarn` "returns true once the current time is at or past
`lastShownAt + cooldownDays`": no passage of time ever re-authorizes a
warning. -/
theorem claim1_cooldown_counterexample :
    ShouldWarn exhaustedCache warnKey maxWarnings = false ∧
    ShouldWarn (LoadCache (some (SaveCache exhaustedCache))) warnKey maxWarnings = false ∧
    ShouldWarn (recordN 5 exhaustedCache warnKey) warnKey maxWarnings = false := by
  decide

/-- Claim C1 (amended): the code has no cooldown phase.  `ShouldWarn`
depends only on the stored count: once a key's count equals `maxWarnings`,
it returns false on that evaluation and on every evaluation after any
further sequence of `RecordWarning` calls that does not wrap the 32-bit
counter; elapsed time plays no role (no `lastShownAt` is stored). -/
theorem claim1_no_time_reauthorization (cache : ModWarningCache) (key : List Nat)
    (h : countOf cache key = maxWarnings) (n : Nat)
    (hn : maxWarnings + n < 4294967296) :
    ShouldWarn (recordN n cache key) key maxWarnings = false := by
  have hlt : countOf cache key < 4294967296 := by rw [h]; norm_num [maxWarnings]
  have hc := countOf_recordN n cache key hlt
  rw [h] at hc
  rw [ShouldWarn, hc, Nat.mod_eq_of_lt hn]
  simp only [decide_eq_false_iff_not, maxWarnings]
  omega

/-- Claim C1 witness: the amended theorem at the concrete exhausted cache
with two further recorded displays. -/
theorem claim1_witness :
    countOf exhaustedCache warnKey = maxWarnings ∧
    maxWarnings + 2 < 4294967296 ∧
    ShouldWarn (recordN 2 exhaustedCache warnKey) warnKey maxWarnings = false :=
  ⟨by decide, by decide,
    claim1_no_time_reauthorization exhaustedCache warnKey (by decide) 2 (by decide)⟩

/-! ### Claim C2 -/

/-- Claim C2 counterexample: the complete persisted state immediately after
the third recorded display of `warnKey` (starting from a fresh cache) is an
explicit 45-byte stream holding only the three empty fingerprint strings,
the entry count, and the single entry as key length, key bytes and count
`3`.  No `lastShownAt` timestamp and no `initialPhaseComplete` flag exist
anywhere in the entry, and the bytes are the same whatever the current
time — contradicting the claim that `recordShown` "sets `lastShownAt` to
the current time" and that the entry "has `initialPhaseComplete == true`". -/
theorem claim2_entry_fields_counterexample :
    (RecordWarning (RecordWarning (RecordWarning emptyCache warnKey).1 warnKey).1 warnKey).2 =
      [0, 0, 0, 0, 0, 0, 0, 0, 0, 0, 0, 0, 1, 0, 0, 0, 28, 0, 0, 0]
        ++ warnKey ++ [3, 0, 0, 0] := by
  decide

/-- Claim C2 (amended): `RecordWarning` increments the key's stored count
(the only per-entry state) and synchronously persists the serialized
cache; with `initialWarningCount = maxWarnings = 3`, after 3 recorded
displays of a fresh key the count is exactly 3 and `ShouldWarn` is false,
regardless of elapsed time.  There is no `lastShownAt` and no
`initialPhaseComplete` field to update. -/
theorem claim2_record_increments_persists (cache : ModWarningCache) (key : List Nat)
    (h : countOf cache key = 0) :
    countOf (RecordWarning cache key).1 key = 1 ∧
    (RecordWarning cache key).2 = SaveCache (RecordWarning cache key).1 ∧
    countOf (recordN 3 cache key) key = 3 ∧
    ShouldWarn (recordN 3 cache key) key maxWarnings = false := by
  have hlt : countOf cache key < 4294967296 := by rw [h]; norm_num
  refine ⟨?_, rfl, ?_, ?_⟩
  · rw [countOf_recordWarning, h]
  · rw [countOf_recordN 3 cache key hlt, h]
  · rw [ShouldWarn, countOf_recordN 3 cache key hlt, h]
    decide

/-- Claim C2 witness: the amended theorem at the fresh cache and the
program's condition key. -/
theorem claim2_witness :
    countOf emptyCache warnKey = 0 ∧
    (countOf (RecordWarning emptyCache warnKey).1 warnKey = 1 ∧
      (RecordWarning emptyCache warnKey).2 = SaveCache (RecordWarning emptyCache warnKey).1 ∧
      countOf (recordN 3 emptyCache warnKey) warnKey = 3 ∧
      ShouldWarn (recordN 3 emptyCache warnKey) warnKey maxWarnings = false) :=
  ⟨by decide, claim2_record_increments_persists emptyCache warnKey (by decide)⟩

/-! ### Claim C10 -/

/-- Claim C10 counterexample: suppression is not permanent.  Starting from
the exhausted state (count `3`, `ShouldWarn` false), a further sequence of
`2^32 - 3` `RecordWarning` calls wraps the 32-bit counter back to `0`, and
`ShouldWarn` returns true again — contradicting "per-key counts only ever
increase" and "returns false on every evaluation after any further
sequence of `RecordWarning` calls". -/
theorem claim10_wraparound_counterexample :
    ShouldWarn exhaustedCache warnKey maxWarnings = false ∧
    ShouldWarn (recordN (4294967296 - 3) exhaustedCache warnKey) warnKey maxWarnings = true := by
  constructor
  · decide
  · have hc := countOf_recordN (4294967296 - 3) exhaustedCache warnKey (by decide)
    have h3 : countOf exhaustedCache warnKey = 3 := by decide
    rw [h3] at hc
    have hz : (3 + (4294967296 - 3)) % 4294967296 = 0 := by decide
    rw [ShouldWarn, hc, hz]
    decide

/-- Claim C10 (amended): once a key's recorded count has reached
`maxWarnings`, `ShouldWarn` returns false on that evaluation and after any
further sequence of `RecordWarning` calls short enough not to wrap the
32-bit counter (fewer than `2^32 - count` further calls). -/
theorem claim10_suppression_without_wrap (cache : ModWarningCache) (key : List Nat)
    (n : Nat) (h : maxWarnings ≤ countOf cache key)
    (h2 : countOf cache key + n < 4294967296) :
    ShouldWarn (recordN n cache key) key maxWarnings = false := by
  have hlt : countOf cache key < 4294967296 := by omega
  have hc := countOf_recordN n cache key hlt
  rw [ShouldWarn, hc, Nat.mod_eq_of_lt h2]
  simp only [decide_eq_false_iff_not]
  have h' : 3 ≤ countOf cache key := by simpa [maxWarnings] using h
  show ¬(countOf cache key + n < maxWarnings)
  simp only [maxWarnings]
  omega

/-- Claim C10 witness: the amended theorem at the exhausted cache with one
further recorded display. -/
theorem claim10_witness :
    maxWarnings ≤ countOf exhaustedCache warnKey ∧
    countOf exhaustedCache warnKey + 1 < 4294967296 ∧
    ShouldWarn (recordN 1 exhaustedCache warnKey) warnKey maxWarnings = false :=
  ⟨by decide, by decide,
    claim10_suppression_without_wrap exhaustedCache warnKey 1 (by decide) (by decide)⟩

/-! ### Claim C4 -/

/-- Claim C4 counterexample: the round trip is not the identity on every
populated cache.  String lengths are serialized through
`static_cast<uint32_t>`, so a populated cache whose `installPath` has
`2^32` code units (representable by a 64-bit `std::wstring`) saves with a
truncated length field of `0` and loads back with an empty `installPath`. -/
theorem claim4_roundtrip_counterexample :
    LoadCache (some (SaveCache hugeCache)) ≠ hugeCache := by
  have hser : serializeWStr (List.replicate 4294967296 65) = [0, 0, 0, 0] := by
    rw [serializeWStr, List.length_replicate, Nat.mod_self, List.take_zero]
    decide
  have hsave : SaveCache hugeCache =
      [0, 0, 0, 0, 0, 0, 0, 0, 0, 0, 0, 0, 1, 0, 0, 0, 1, 0, 0, 0, 97, 1, 0, 0, 0] := by
    have hd : SaveCache hugeCache =
        serializeWStr (List.replicate 4294967296 65) ++ serializeWStr []
          ++ serializeWStr [] ++ u32LE (1 % 4294967296)
          ++ serializeEntries [([97], 1)] := rfl
    rw [hd, hser]
    decide
  rw [hsave]
  intro hEq
  have hload : LoadCache
      (some [0, 0, 0, 0, 0, 0, 0, 0, 0, 0, 0, 0, 1, 0, 0, 0, 1, 0, 0, 0, 97, 1, 0, 0, 0]) =
      ⟨[], [], [], [([97], 1)]⟩ := by decide
  rw [hload] at hEq
  have hip := congrArg (fun c => c.installPath.length) hEq
  simp only [hugeCache, List.length_replicate, List.length_nil] at hip
  exact absurd hip (by decide)

/-- Claim C4 (amended): the save-then-load round trip is the identity on
every populated cache whose string fields, key lists and entry count are
shorter than `2^32`, whose wide-string code units fit `wchar_t`, whose
counts fit `uint32_t`, and whose keys are distinct — i.e. every cache
state the C++ type can hold except for strings of length at least `2^32`,
which the 32-bit length fields truncate. -/
theorem claim4_roundtrip_bounded (d : ModWarningCache)
    (h1 : d.installPath.length < 4294967296) (h2 : ∀ x ∈ d.installPath, x < 65536)
    (h3 : d.installDate.length < 4294967296) (h4 : ∀ x ∈ d.installDate, x < 65536)
    (h5 : d.fixVersion.length < 4294967296) (h6 : ∀ x ∈ d.fixVersion, x < 65536)
    (h7 : d.warnCounts.length < 4294967296)
    (h8 : ∀ e ∈ d.warnCounts, e.1.length < 4294967296 ∧ e.2 < 4294967296)
    (h9 : (d.warnCounts.map Prod.fst).Nodup) :
    LoadCache (some (SaveCache d)) = d := by
  have h := loadCache_saveCache_append d [] h1 h2 h3 h4 h5 h6 h7 h8 h9
  simpa using h

/-- Claim C4 witness: the round-trip theorem at a concrete populated cache
with all fields non-trivial. -/
theorem claim4_witness :
    roundTripSample.installPath.length < 4294967296 ∧
    (∀ x ∈ roundTripSample.installPath, x < 65536) ∧
    roundTripSample.installDate.length < 4294967296 ∧
    (∀ x ∈ roundTripSample.installDate, x < 65536) ∧
    roundTripSample.fixVersion.length < 4294967296 ∧
    (∀ x ∈ roundTripSample.fixVersion, x < 65536) ∧
    roundTripSample.warnCounts.length < 4294967296 ∧
    (∀ e ∈ roundTripSample.warnCounts, e.1.length < 4294967296 ∧ e.2 < 4294967296) ∧
    (roundTripSample.warnCounts.map Prod.fst).Nodup ∧
    LoadCache (some (SaveCache roundTripSample)) = roundTripSample :=
  ⟨by decide, by decide, by decide, by decide, by decide, by decide, by decide, by decide,
    by decide,
    claim4_roundtrip_bounded roundTripSample (by decide) (by decide) (by decide) (by decide)
      (by decide) (by decide) (by decide) (by decide) (by decide)⟩

/-! ### Claim C7 -/

/-- Claim C7 counterexample: the persisted representation of a concrete
one-entry cache is an explicit 25-byte stream whose fields are, in order:
`installPath` length, `installDate` length, `fixVersion` length (each with
its data, here empty), entry count, then key length, key bytes and count.
The stream begins with a string-length field, not a schema tag; it
contains no schema version, and the per-entry record has no last-shown
timestamp and no initial-phase-complete flag; loading it back performs no
tag or version check and succeeds — contradicting the claimed layout. -/
theorem claim7_layout_counterexample :
    SaveCache sampleCache =
      [0, 0, 0, 0, 0, 0, 0, 0, 0, 0, 0, 0, 1, 0, 0, 0, 1, 0, 0, 0, 97, 5, 0, 0, 0] ∧
    LoadCache
      (some [0, 0, 0, 0, 0, 0, 0, 0, 0, 0, 0, 0, 1, 0, 0, 0, 1, 0, 0, 0, 97, 5, 0, 0, 0]) =
      sampleCache := by
  decide

/-- Claim C7 (amended): the persisted representation consists, in order, of
the three length-prefixed fingerprint strings (`installPath`,
`installDate`, `fixVersion`), the entry count, and then for each entry the
key length, key bytes and count.  There is no schema tag, no schema
version, no per-entry timestamp and no flag; no version check is performed
on load, and the explicit length fields make the format self-describing:
any trailing bytes after the declared entries are ignored. -/
theorem claim7_actual_layout (d : ModWarningCache) (junk : List Nat)
    (h1 : d.installPath.length < 4294967296) (h2 : ∀ x ∈ d.installPath, x < 65536)
    (h3 : d.installDate.length < 4294967296) (h4 : ∀ x ∈ d.installDate, x < 65536)
    (h5 : d.fixVersion.length < 4294967296) (h6 : ∀ x ∈ d.fixVersion, x < 65536)
    (h7 : d.warnCounts.length < 4294967296)
    (h8 : ∀ e ∈ d.warnCounts, e.1.length < 4294967296 ∧ e.2 < 4294967296)
    (h9 : (d.warnCounts.map Prod.fst).Nodup) :
    LoadCache (some (SaveCache d ++ junk)) = d :=
  loadCache_saveCache_append d junk h1 h2 h3 h4 h5 h6 h7 h8 h9

/-- Claim C7 witness: the layout theorem at a concrete populated cache with
concrete trailing junk bytes. -/
theorem claim7_witness :
    roundTripSample.installPath.length < 4294967296 ∧
    (∀ x ∈ roundTripSample.installPath, x < 65536) ∧
    roundTripSample.installDate.length < 4294967296 ∧
    (∀ x ∈ roundTripSample.installDate, x < 65536) ∧
    roundTripSample.fixVersion.length < 4294967296 ∧
    (∀ x ∈ roundTripSample.fixVersion, x < 65536) ∧
    roundTripSample.warnCounts.length < 4294967296 ∧
    (∀ e ∈ roundTripSample.warnCounts, e.1.length < 4294967296 ∧ e.2 < 4294967296) ∧
    (roundTripSample.warnCounts.map Prod.fst).Nodup ∧
    LoadCache (some (SaveCache roundTripSample ++ [255, 1, 2])) = roundTripSample :=
  ⟨by decide, by decide, by decide, by decide, by decide, by decide, by decide, by decide,
    by decide,
    claim7_actual_layout roundTripSample [255, 1, 2] (by decide) (by decide) (by decide)
      (by decide) (by decide) (by decide) (by decide) (by decide) (by decide)⟩

/-! ### Claim C5 -/

/-- Claim C5 counterexample: a run of `VerifyInstallation::Check` that
loads a cache with a stale fingerprint and triggers no warning condition
clears the entries and adopts the new fingerprint in memory, but performs
no save at all (`writes = []`) — contradicting "this reset is itself
persisted immediately to durable storage".  The stored cache had a
non-empty history, so the stale file remains on disk unchanged. -/
theorem claim5_reset_not_persisted_counterexample :
    (VerifyInstallationCheck (some (SaveCache staleCache)) [66] [] [] false false).writes = [] ∧
    (VerifyInstallationCheck (some (SaveCache staleCache)) [66] [] [] false false).cache.warnCounts = [] ∧
    staleCache.warnCounts ≠ [] := by
  decide

/-- Claim C5 (amended): when any of the three stored fingerprint fields
differs from the live environment, all entries are cleared and the new
fingerprint adopted in memory before any entry is read or written — the
condition key's final count is exactly the number of warnings shown in
this run — but the reset is persisted only when a subsequent warning is
recorded: no condition fired means nothing is written to disk. -/
theorem claim5_reconcile_in_memory (disk : Option (List Nat)) (p dt v : List Nat)
    (c1 c2 : Bool)
    (h : ¬((LoadCache disk).installPath = p ∧ (LoadCache disk).installDate = dt ∧
      (LoadCache disk).fixVersion = v)) :
    (VerifyInstallationCheck disk p dt v c1 c2).cache.installPath = p ∧
    (VerifyInstallationCheck disk p dt v c1 c2).cache.installDate = dt ∧
    (VerifyInstallationCheck disk p dt v c1 c2).cache.fixVersion = v ∧
    countOf (VerifyInstallationCheck disk p dt v c1 c2).cache warnKey =
      ((if c1 then 1 else 0) + (if c2 then 1 else 0)) ∧
    ((VerifyInstallationCheck disk p dt v c1 c2).writes = [] ↔ (c1 = false ∧ c2 = false)) := by
  cases c1 <;> cases c2 <;>
    simp [VerifyInstallationCheck, runWarnStep, RecordWarning, ShouldWarn, countOf,
      findCount, bumpCount, maxWarnings, h]

/-- Claim C5 witness: the reconciliation theorem at an absent cache file
(whose empty fingerprint differs from the live one) with the first
condition firing. -/
theorem claim5_witness :
    (¬((LoadCache none).installPath = [66] ∧ (LoadCache none).installDate = ([] : List Nat) ∧
      (LoadCache none).fixVersion = ([] : List Nat))) ∧
    ((VerifyInstallationCheck none [66] [] [] true false).cache.installPath = [66] ∧
      (VerifyInstallationCheck none [66] [] [] true false).cache.installDate = [] ∧
      (VerifyInstallationCheck none [66] [] [] true false).cache.fixVersion = [] ∧
      countOf (VerifyInstallationCheck none [66] [] [] true false).cache warnKey =
        ((if true then 1 else 0) + (if false then 1 else 0)) ∧
      ((VerifyInstallationCheck none [66] [] [] true false).writes = [] ↔
        (true = false ∧ false = false))) :=
  ⟨by decide, claim5_reconcile_in_memory none [66] [] [] true false (by decide)⟩

/-! ### Claim C6 -/

/-- Claim C6 counterexample: a truncated cache file does not load as an
empty cache.  A file declaring two entries but containing only one loads
with a non-empty mapping: the complete first entry is kept, and the failed
reads of the second entry yield a zero-filled bogus entry `([], 0)` —
contradicting "returns a fresh empty cache (empty entry mapping)" for
every corrupt or truncated content. -/
theorem claim6_truncated_nonempty_counterexample :
    (LoadCache
      (some [0, 0, 0, 0, 0, 0, 0, 0, 0, 0, 0, 0, 2, 0, 0, 0, 1, 0, 0, 0, 97, 5, 0, 0, 0])).warnCounts =
      [([97], 5), ([], 0)] ∧
    (LoadCache
      (some [0, 0, 0, 0, 0, 0, 0, 0, 0, 0, 0, 0, 2, 0, 0, 0, 1, 0, 0, 0, 97, 5, 0, 0, 0])).warnCounts ≠
      [] := by
  decide

/-- Claim C6 (amended): `LoadCache` is a total function — no error ever
reaches the caller.  An absent or unopenable file yields the fresh empty
cache, and so does an empty or all-zero file of any length; but corrupt or
truncated content in general is parsed best-effort (failed reads
zero-fill), which can keep already-read entries rather than returning an
empty mapping. -/
theorem claim6_load_total_behavior :
    LoadCache none = emptyCache ∧
    ∀ n : Nat, LoadCache (some (List.replicate n 0)) = emptyCache := by
  constructor
  · rfl
  · intro n
    rw [LoadCache]
    simp only [readWStr_replicate_zero, readN_replicate_zero]
    have h4 : decodeU32 (List.replicate 4 0) = 0 := by decide
    have h4' : decodeU32 [0, 0, 0, 0] = 0 := by decide
    simp [h4, h4', loadEntries, emptyCache]

/-! ### Claim C8 -/

/-- Claim C8 counterexample: the program's two distinct warning conditions
do not have independent notification budgets, because both warning sites
pass the same key `"MGS2_AfevisBugFixCompilation"`.  Starting from a
stored count of 2, when condition 1 fires and records a display, condition
2's pop-up in the same run is suppressed; with condition 1 quiet,
condition 2's pop-up is shown — recording for one condition changed the
other condition's `ShouldWarn` outcome. -/
theorem claim8_shared_key_counterexample :
    (VerifyInstallationCheck (some (SaveCache stored2)) [] [] [] true true).shown2 = false ∧
    (VerifyInstallationCheck (some (SaveCache stored2)) [] [] [] false true).shown2 = true := by
  decide

/-- Claim C8 (amended): throttling state is keyed by the key string, and
distinct keys are fully independent — recording a warning for one key
changes neither the stored entry nor the `ShouldWarn` result of any other
key; but the program's two conditions share the single key
`"MGS2_AfevisBugFixCompilation"` and therefore share one budget. -/
theorem claim8_distinct_keys_independent (cache : ModWarningCache)
    (k1 k2 : List Nat) (m : Nat) (h : k1 ≠ k2) :
    findCount (RecordWarning cache k1).1.warnCounts k2 = findCount cache.warnCounts k2 ∧
    ShouldWarn (RecordWarning cache k1).1 k2 m = ShouldWarn cache k2 m := by
  have hf : findCount (bumpCount cache.warnCounts k1) k2 = findCount cache.warnCounts k2 :=
    findCount_bumpCount_other cache.warnCounts k1 k2 (Ne.symm h)
  constructor
  · simpa [RecordWarning] using hf
  · simp [ShouldWarn, countOf, RecordWarning, hf]

/-- Claim C8 witness: the key-independence theorem at two concrete distinct
keys. -/
theorem claim8_witness :
    ([0] : List Nat) ≠ [1] ∧
    (findCount (RecordWarning emptyCache [0]).1.warnCounts [1] =
        findCount emptyCache.warnCounts [1] ∧
      ShouldWarn (RecordWarning emptyCache [0]).1 [1] 3 = ShouldWarn emptyCache [1] 3) :=
  ⟨by decide, claim8_distinct_keys_independent emptyCache [0] [1] 3 (by decide)⟩
